import Mathlib

/-!
Verification development for the mongodb-wrapper repository: two facade
classes over the MongoDB node driver. `MongoWrapper` (src/src/mongoWrapper.js)
owns a connect/disconnect lifecycle; `MongoCollectionWrapper` adds a
duplicate-uuid probe before insertion, existence checks after single-document
update/delete, and a guarded subfield push.

The embedding models JS values (documents, arrays, strings, null, undefined)
as a mutual inductive family, the driver's collection as an in-memory list of
documents with MongoDB's query-by-example matching (top-level equality,
dotted paths, implicit array traversal), and the connection-level driver
(MongoClient.connect / connection.db / connection.close) as an arbitrary
record of fallible operations, so that failing driver calls are covered.
-/

/-! Values of the BSON/JS documents this layer passes around. `vUndefined` is the
JS `undefined` (property access on a missing key); `vNull` the JS/BSON null.
The family is mutual so that functions over it reduce in the kernel. -/
mutual
inductive Value where
  | vNull
  | vUndefined
  | vStr (s : String)
  | vInt (n : Int)
  | vBool (b : Bool)
  | vDoc (fields : Fields)
  | vArr (elems : ValList)
deriving Repr

/-- Association list of a document's fields, in key order (JS objects keep
insertion order; keys of well-formed documents are distinct). -/
inductive Fields where
  | nil
  | cons (k : String) (v : Value) (rest : Fields)
deriving Repr

/-- Elements of a JS/BSON array. -/
inductive ValList where
  | nil
  | cons (v : Value) (rest : ValList)
deriving Repr
end

/-- A document is its field list. -/
abbrev Document := Fields

/-- Builds a field list from a Lean list, for concrete instances. -/
def fieldsOf : List (String × Value) → Fields
  | [] => .nil
  | (k, v) :: r => .cons k v (fieldsOf r)

/-- JS property access `o[k]`: value of the first matching key,
`undefined` when the key is absent. -/
def fget : Fields → String → Value
  | .nil, _ => .vUndefined
  | .cons k' v r, k => if k' == k then v else fget r k

/-- Rest-spread `{ uuid, ...fields }`: the fields with key `k` removed. -/
def fRemove : Fields → String → Fields
  | .nil, _ => .nil
  | .cons k' v r, k => if k' == k then fRemove r k else .cons k' v (fRemove r k)

/-- JS property access on an arbitrary value: fields of a document, else
`undefined` (the model flattens the TypeError on null/undefined receivers
into `undefined`; no claim depends on that corner). -/
def getField (v : Value) (k : String) : Value :=
  match v with
  | .vDoc fs => fget fs k
  | _ => .vUndefined

/-- JS truthiness, as used in `if (existingDocument.length)`, `if (!value)`. -/
def jsTruthy : Value → Bool
  | .vNull => false
  | .vUndefined => false
  | .vBool b => b
  | .vStr s => s != ""
  | .vInt n => n != 0
  | .vDoc _ => true
  | .vArr _ => true

/-- Whether a wrapper call resolved rather than rejected. -/
def isOkResult : Except MongoError Value → Bool
  | .ok _ => true
  | .error _ => false

/-- Whether a value is JS null or undefined. -/
def isNullish : Value → Bool
  | .vNull => true
  | .vUndefined => true
  | _ => false

/-- The driver serializes `undefined` as null (BSON has no undefined), so
query comparison identifies the two at the top level. -/
def normTop (v : Value) : Value :=
  match v with
  | .vUndefined => .vNull
  | w => w

/-! Structural equality of values, as BSON comparison uses it. -/
mutual
def valueBeq : Value → Value → Bool
  | .vNull, .vNull => true
  | .vUndefined, .vUndefined => true
  | .vStr a, .vStr b => a == b
  | .vInt a, .vInt b => a == b
  | .vBool a, .vBool b => a == b
  | .vDoc a, .vDoc b => fieldsBeq a b
  | .vArr a, .vArr b => valListBeq a b
  | _, _ => false

def fieldsBeq : Fields → Fields → Bool
  | .nil, .nil => true
  | .cons k v r, .cons k' v' r' => k == k' && valueBeq v v' && fieldsBeq r r'
  | _, _ => false

def valListBeq : ValList → ValList → Bool
  | .nil, .nil => true
  | .cons v r, .cons v' r' => valueBeq v v' && valListBeq r r'
  | _, _ => false
end

/-- Whether some element of the array equals the query value (MongoDB's
implicit array membership at a path's end). -/
def anyElemEq : ValList → Value → Bool
  | .nil, _ => false
  | .cons x xs, q => valueBeq (normTop x) q || anyElemEq xs q

/-- Equality test at the end of a query path: direct equality, or membership
when the stored value is an array. -/
def leafMatch (v q : Value) : Bool :=
  valueBeq (normTop v) (normTop q) ||
    (match v with
     | .vArr xs => anyElemEq xs (normTop q)
     | _ => false)

/-- Splits a query key on dots, as the server reads `"foo.uuid"`. -/
def splitDotsAux : List Char → List Char → List String
  | [], acc => [String.mk acc.reverse]
  | c :: cs, acc =>
    if c == '.' then String.mk acc.reverse :: splitDotsAux cs []
    else splitDotsAux cs (c :: acc)

/-- Path components of a dotted query key. -/
def splitDots (s : String) : List String := splitDotsAux s.data []

/-! Whether a value matches a query value at the given path. Documents are
entered by key, arrays are traversed implicitly; a path that ends or cannot
be followed matches null-ish query values the way a missing field does. -/
mutual
def matchAt : Value → List String → Value → Bool
  | v, [], q => leafMatch v q
  | .vDoc fs, k :: rest, q => matchFields fs k rest q
  | .vArr xs, k :: rest, q => matchArr xs (k :: rest) q
  | _, _ :: _, q => isNullish q

def matchFields : Fields → String → List String → Value → Bool
  | .nil, _, _, q => isNullish q
  | .cons k' v r, k, rest, q =>
    if k' == k then matchAt v rest q else matchFields r k rest q

def matchArr : ValList → List String → Value → Bool
  | .nil, _, _ => false
  | .cons x xs, p, q => matchAt x p q || matchArr xs p q
end

/-- Query-by-example: every key of the query (a dotted path) must match. -/
def matchesQuery : Fields → Document → Bool
  | .nil, _ => true
  | .cons k qv r, d => matchAt (.vDoc d) (splitDots k) qv && matchesQuery r d

/-- Error kinds of src/src/mongoError.js: the base `MongoError`,
`MongoDuplicateEntryError`, `MongoNonExistentEntryError` (plain Error
subclasses per index.d.ts; the file itself only carries the class names), and
a JS runtime TypeError for a null dereference (never reached from states the
wrapper can be in). -/
inductive ErrorKind where
  | mongo
  | duplicateEntry
  | nonExistentEntry
  | jsRuntime
deriving Repr, DecidableEq

/-- An error as the wrapper raises it: its class and its message. -/
structure MongoError where
  kind : ErrorKind
  message : String
deriving Repr, DecidableEq

/-- Base `MongoError` with a message. -/
def mongoErr (msg : String) : MongoError := ⟨.mongo, msg⟩

/-- `MongoDuplicateEntryError` as `insertOne`/`safeInsertSubfields` raise it,
naming the collection. -/
def duplicateErr (collectionName : String) : MongoError :=
  ⟨.duplicateEntry, "Cannot insert into " ++ collectionName ++ ": UUID already exists."⟩

/-- `MongoNonExistentEntryError` as `updateOne` raises it, naming the collection. -/
def nonExistentUpdateErr (collectionName : String) : MongoError :=
  ⟨.nonExistentEntry, "Cannot update " ++ collectionName ++ ": UUID doesn't exists."⟩

/-! The driver's per-collection operations, modelled on an in-memory list of
documents. Each returns the new document list and the driver's result value
(the resolved JS object, from which the wrapper destructures fields). -/
namespace Collection

/-- `collection.find(query)` (with `.toArray()`): the matching documents. -/
def find (docs : List Document) (q : Fields) : List Document :=
  docs.filter (fun d => matchesQuery q d)

/-- `collection.insertOne(doc)`: appends and reports the insertion. -/
def insertOne (docs : List Document) (d : Document) : List Document × Value :=
  (docs ++ [d],
   .vDoc (.cons "insertedCount" (.vInt 1) (.cons "ops" (.vArr (.cons (.vDoc d) .nil)) .nil)))

/-- Appends two arrays. -/
def appendVL : ValList → ValList → ValList
  | .nil, ys => ys
  | .cons x xs, ys => .cons x (appendVL xs ys)

/-- `$set` of one field: replaces the value at the key, appends when absent. -/
def fSet : Fields → String → Value → Fields
  | .nil, k, v => .cons k v .nil
  | .cons k' v' r, k, v =>
    if k' == k then .cons k' v r else .cons k' v' (fSet r k v)

/-- `$push` of one field: appends to the array at the key, creates a
one-element array when the key is absent. A `$push` onto a non-array is a
server error; the model leaves such a field unchanged (no claim reaches it). -/
def fPush : Fields → String → Value → Fields
  | .nil, k, v => .cons k (.vArr (.cons v .nil)) .nil
  | .cons k' v' r, k, v =>
    if k' == k then
      match v' with
      | .vArr xs => .cons k' (.vArr (appendVL xs (.cons v .nil))) r
      | w => .cons k' w r
    else .cons k' v' (fPush r k v)

/-- Applies one update operator (`$set` or `$push`; the wrapper builds no
other) to a document, field by field. Unknown operators leave the document
unchanged (the server would reject them; no claim reaches that). -/
def applyOp : String → Fields → Document → Document
  | _, .nil, d => d
  | op, .cons k v r, d =>
    let d' :=
      if op == "$set" then fSet d k v
      else if op == "$push" then fPush d k v
      else d
    applyOp op r d'

/-- Applies an update document such as `{ "$set": fields }`. -/
def applyUpdate : Fields → Document → Document
  | .nil, d => d
  | .cons op arg r, d =>
    let d' :=
      match arg with
      | .vDoc fs => applyOp op fs d
      | _ => d
    applyUpdate r d'

/-- Transforms the first document matching the query; reports the document as
it was before (the driver's `returnOriginal` default is true, per the
repository's own option documentation for `findOneAndUpdate`). -/
def updateFirst (q : Fields) (f : Document → Document) :
    List Document → List Document × Option Document
  | [] => ([], none)
  | d :: ds =>
    if matchesQuery q d then (f d :: ds, some d)
    else
      let r := updateFirst q f ds
      (d :: r.1, r.2)

/-- Result field `value`: the document, or null when nothing matched. -/
def optDocValue : Option Document → Value
  | none => .vNull
  | some d => .vDoc d

/-- `collection.findOneAndUpdate(filter, update)` with default options:
updates the first match atomically, resolves `{ value, ok }` where `value` is
the original matched document or null. -/
def findOneAndUpdate (docs : List Document) (q : Fields) (upd : Fields) :
    List Document × Value :=
  let r := updateFirst q (applyUpdate upd) docs
  (r.1, .vDoc (.cons "value" (optDocValue r.2) (.cons "ok" (.vInt 1) .nil)))

/-- `collection.updateMany(filter, update)`: updates every match; the
resolved result carries counts but no `value` field. -/
def updateMany (docs : List Document) (q : Fields) (upd : Fields) :
    List Document × Value :=
  (docs.map (fun d => if matchesQuery q d then applyUpdate upd d else d),
   .vDoc (.cons "matchedCount" (.vInt ((find docs q).length : Int))
     (.cons "modifiedCount" (.vInt ((find docs q).length : Int))
       (.cons "ok" (.vInt 1) .nil))))

/-- Removes the first document matching the query, reporting it. -/
def removeFirst (q : Fields) : List Document → List Document × Option Document
  | [] => ([], none)
  | d :: ds =>
    if matchesQuery q d then (ds, some d)
    else
      let r := removeFirst q ds
      (d :: r.1, r.2)

/-- `collection.findAndRemove(query)` (deprecated findAndModify remove):
removes one matching document and resolves `{ value, ok }`. -/
def findAndRemove (docs : List Document) (q : Fields) : List Document × Value :=
  let r := removeFirst q docs
  (r.1, .vDoc (.cons "value" (optDocValue r.2) (.cons "ok" (.vInt 1) .nil)))

end Collection

/-- State of a `MongoCollectionWrapper` bound to a collection: the stored
collection name and the driver collection it operates on (modelled by its
documents). -/
structure CollState where
  collectionName : String
  docs : List Document

namespace MongoCollectionWrapper

/-- `insertOne({ uuid, ...fields })` of src/src/mongoWrapper.js lines
185-194: probes `find({ uuid })`, raises `MongoDuplicateEntryError` when any
document matched, else inserts `{ uuid, ...fields }` and returns the driver's
insertion result. -/
def insertOne (s : CollState) (doc : Document) : CollState × Except MongoError Value :=
  let uuid := fget doc "uuid"
  let fields := fRemove doc "uuid"
  let existingDocument := Collection.find s.docs (.cons "uuid" uuid .nil)
  if existingDocument.length != 0 then
    (s, .error (duplicateErr s.collectionName))
  else
    let r := Collection.insertOne s.docs (.cons "uuid" uuid fields)
    ({ s with docs := r.1 }, .ok r.2)

/-- `updateOne(filters, fields, stategy = "$set")` lines 208-216: atomic
`findOneAndUpdate` with `{ [stategy]: fields }`, destructures `value`, raises
`MongoNonExistentEntryError` when it is falsy, else returns it. -/
def updateOne (s : CollState) (filters : Fields) (fields : Fields)
    (strategy : String := "$set") : CollState × Except MongoError Value :=
  let r := Collection.findOneAndUpdate s.docs filters (.cons strategy (.vDoc fields) .nil)
  let value := getField r.2 "value"
  if jsTruthy value then ({ s with docs := r.1 }, .ok value)
  else ({ s with docs := r.1 }, .error (nonExistentUpdateErr s.collectionName))

/-- `updateMany(filters, fields, stategy = "$set")` lines 226-230: delegates
to the driver's `updateMany`, destructures `value` (absent from that result)
and returns it with no existence check. -/
def updateMany (s : CollState) (filters : Fields) (fields : Fields)
    (strategy : String := "$set") : CollState × Except MongoError Value :=
  let r := Collection.updateMany s.docs filters (.cons strategy (.vDoc fields) .nil)
  ({ s with docs := r.1 }, .ok (getField r.2 "value"))

/-- `deleteMany(fields)` lines 258-262: delegates to the driver's
`findAndRemove`, destructures `value` and returns it with no existence
check. -/
def deleteMany (s : CollState) (q : Fields) : CollState × Except MongoError Value :=
  let r := Collection.findAndRemove s.docs q
  ({ s with docs := r.1 }, .ok (getField r.2 "value"))

/-- `safeInsertSubfields(filters, fields)` lines 351-365: takes the first key
of `fields`, probes `find({ [`sub.uuid`]: fields[sub].uuid }).limit(1).size()`,
raises `MongoDuplicateEntryError` when the count is non-zero, else runs
`updateOne(filters, fields, "$push")` and resolves with undefined. An empty
`fields` object makes the JS read a property of undefined (TypeError). -/
def safeInsertSubfields (s : CollState) (filters : Fields) (fields : Fields) :
    CollState × Except MongoError Value :=
  match fields with
  | .nil => (s, .error ⟨.jsRuntime, "TypeError: cannot read property of undefined"⟩)
  | .cons subField _ _ =>
    let filter := subField ++ ".uuid"
    let subUuid := getField (fget fields subField) "uuid"
    let existingDocument := ((Collection.find s.docs (.cons filter subUuid .nil)).take 1).length
    if existingDocument != 0 then
      (s, .error (duplicateErr s.collectionName))
    else
      let r := updateOne s filters fields "$push"
      match r.2 with
      | .error e => (r.1, .error e)
      | .ok _ => (r.1, .ok .vUndefined)

end MongoCollectionWrapper

/-- An instance the collection-wrapper constructor resolves to: the driver
collection handle (of an arbitrary handle type) and the stored name. -/
structure CollInstance (α : Type) where
  collection : α
  collectionName : String
deriving Repr, DecidableEq

/-- The `MongoCollectionWrapper` constructor, lines 159-176: rejects a falsy
client (`null`/`undefined`, modelled as `none`) with a client-missing
`MongoError`, a falsy collection name (missing, or the empty string) with a
name-missing `MongoError`; otherwise awaits `mongoClient.collection(name)`,
propagating its failure, and resolves to the bound instance. The client is
its `collection` method. -/
def constructCollectionWrapper {α : Type}
    (mongoClient : Option (String → Except MongoError α))
    (collectionName : Option String) : Except MongoError (CollInstance α) :=
  match mongoClient with
  | none => .error (mongoErr "Mongo client is not provided.")
  | some client =>
    match collectionName with
    | none => .error (mongoErr "Collection name is not provided.")
    | some name =>
      if name == "" then .error (mongoErr "Collection name is not provided.")
      else
        match client name with
        | .error e => .error e
        | .ok h => .ok ⟨h, name⟩

/-- Handle to an open client connection; opaque to the wrapper. -/
abbrev ClientConn := Nat

/-- Handle to a selected database; opaque to the wrapper. -/
abbrev DbHandle := Nat

/-- The connection-level driver surface `MongoWrapper` calls: each operation
may fail (an upstream error, which the wrapper propagates unmodified).
Theorems quantify over it, so every driver outcome is covered. -/
structure DriverOps where
  clientConnect : String → Except MongoError ClientConn
  dbSelect : ClientConn → String → Except MongoError DbHandle
  close : ClientConn → Except MongoError Unit

/-- The fields of a `MongoWrapper` instance (src/src/mongoWrapper.js lines
14-19): the connected flag and the two nullable handles. -/
structure WrapperState where
  connected : Bool
  connection : Option ClientConn
  db : Option DbHandle
deriving Repr, DecidableEq

namespace MongoWrapper

/-- The `MongoWrapper` constructor: disconnected, both handles null. -/
def init : WrapperState := ⟨false, none, none⟩

/-- `connect(mongoDbUrl, db)` lines 21-31: raises `MongoError` when already
connected; otherwise awaits `MongoClient.connect(mongoDbUrl, ...)` (a failure
leaves every field as it was), assigns the connection, then selects the
database (a failure here leaves the connection assigned but the flag and db
unset), sets the flag and resolves with `this` (the mutated state). -/
def connect (drv : DriverOps) (s : WrapperState) (mongoDbUrl : String)
    (db : String) : WrapperState × Except MongoError WrapperState :=
  if s.connected then
    (s, .error (mongoErr "Already connected."))
  else
    match drv.clientConnect mongoDbUrl with
    | .error e => (s, .error e)
    | .ok c =>
      match drv.dbSelect c db with
      | .error e => ({ s with connection := some c }, .error e)
      | .ok d =>
        let s' : WrapperState := ⟨true, some c, some d⟩
        (s', .ok s')

/-- `disconnect()` lines 33-44: raises `MongoError` when not connected;
otherwise awaits `connection.close()` (a failure changes nothing), then
resets the flag and both handles to their initial values and resolves with
`this`. The null-connection branch is a JS TypeError, unreachable from any
state the wrapper produces. -/
def disconnect (drv : DriverOps) (s : WrapperState) :
    WrapperState × Except MongoError WrapperState :=
  if !s.connected then
    (s, .error (mongoErr "Not connected."))
  else
    match s.connection with
    | none => (s, .error ⟨.jsRuntime, "TypeError: cannot read property close of null"⟩)
    | some c =>
      match drv.close c with
      | .error e => (s, .error e)
      | .ok _ =>
        let s' : WrapperState := ⟨false, none, none⟩
        (s', .ok s')

end MongoWrapper

/-- States a `MongoWrapper` instance can be in: the constructor's state,
followed by any sequence of `connect` and `disconnect` calls, each against an
arbitrary driver (so failing driver calls are included). -/
inductive Reachable : WrapperState → Prop where
  | init : Reachable MongoWrapper.init
  | connectStep (drv : DriverOps) (s : WrapperState) (url db : String) :
      Reachable s → Reachable (MongoWrapper.connect drv s url db).1
  | disconnectStep (drv : DriverOps) (s : WrapperState) :
      Reachable s → Reachable (MongoWrapper.disconnect drv s).1

/-- A driver for which every operation succeeds. -/
def okDriver : DriverOps :=
  ⟨fun _ => .ok 0, fun _ _ => .ok 0, fun _ => .ok ()⟩

/-- A driver whose client connect succeeds but whose database selection
throws (the node driver rejects an invalid database name). -/
def dbSelectFailingDriver : DriverOps :=
  ⟨fun _ => .ok 0, fun _ _ => .error (mongoErr "database names cannot contain the character"),
   fun _ => .ok ()⟩

/-- Handle invariant of every reachable wrapper state: the db handle is set
exactly when connected, and a connected state has a connection handle. -/
theorem reachable_handle_inv : ∀ s : WrapperState, Reachable s →
    s.db.isSome = s.connected ∧ (s.connected = true → s.connection.isSome = true) := by
  intro s h
  induction h with
  | init => exact And.intro rfl (fun hh => absurd hh (by decide))
  | connectStep drv s url db hr ih =>
    by_cases hc : s.connected = true
    · simp only [MongoWrapper.connect, hc, if_true]
      exact And.intro (ih.1.trans hc) (fun _ => ih.2 hc)
    · have hc' : s.connected = false := by simpa using hc
      cases hcc : drv.clientConnect url with
      | error e => simpa [MongoWrapper.connect, hc', hcc] using ih
      | ok c =>
        cases hdb : drv.dbSelect c db with
        | error e =>
          simp [MongoWrapper.connect, hc', hcc, hdb]
          exact Option.not_isSome_iff_eq_none.mp (by simp [ih.1.trans hc'])
        | ok d => simp [MongoWrapper.connect, hc', hcc, hdb]
  | disconnectStep drv s hr ih =>
    by_cases hc : s.connected = true
    · cases hconn : s.connection with
      | none =>
        have hs : (MongoWrapper.disconnect drv s).1 = s := by
          simp [MongoWrapper.disconnect, hc, hconn]
        rw [hs]
        exact ih
      | some c =>
        cases hcl : drv.close c with
        | error e => simpa [MongoWrapper.disconnect, hc, hconn, hcl] using ih
        | ok u => simp [MongoWrapper.disconnect, hc, hconn, hcl]
    · have hc' : s.connected = false := by simpa using hc
      simpa [MongoWrapper.disconnect, hc'] using ih

/-- C3: counterexample. A connect in which the driver connection succeeded
and the database selection failed reaches a state whose connection handle is
non-null while the flag is disconnected, so "the connection handle and the
database handle are non-null if and only if the connected flag is true"
fails in the connection-handle direction. -/
theorem wrapper_invariant_cex :
    Reachable (MongoWrapper.connect dbSelectFailingDriver MongoWrapper.init
        "mongodb://localhost:27017" "users").1 ∧
    (MongoWrapper.connect dbSelectFailingDriver MongoWrapper.init
        "mongodb://localhost:27017" "users").1.connected = false ∧
    (MongoWrapper.connect dbSelectFailingDriver MongoWrapper.init
        "mongodb://localhost:27017" "users").1.connection = some 0 ∧
    (MongoWrapper.connect dbSelectFailingDriver MongoWrapper.init
        "mongodb://localhost:27017" "users").1.db = none :=
  ⟨Reachable.connectStep _ _ _ _ Reachable.init, rfl, rfl, rfl⟩

/-- C3 (amended): in every reachable state, the database handle is non-null
exactly when the flag is connected, a connected state also has a non-null
connection handle, and both handles are non-null iff connected; only the
lone connection handle can stay non-null while disconnected (after a connect
whose database selection failed). -/
theorem wrapper_handles_invariant : ∀ s : WrapperState, Reachable s →
    s.db.isSome = s.connected ∧ (s.connected = true → s.connection.isSome = true) ∧
    (s.connection.isSome && s.db.isSome) = s.connected := by
  intro s h
  rcases reachable_handle_inv s h with ⟨h1, h2⟩
  refine ⟨h1, h2, ?_⟩
  by_cases hc : s.connected = true
  · simp [hc, h1, h2 hc]
  · have hc' : s.connected = false := by simpa using hc
    simp [hc', h1]

/-- C3 witness: the invariant holds at the state reached by one successful
connect. -/
theorem wrapper_handles_invariant_witness :
    (MongoWrapper.connect okDriver MongoWrapper.init "mongodb://localhost:27017"
        "users").1.db.isSome =
      (MongoWrapper.connect okDriver MongoWrapper.init "mongodb://localhost:27017"
        "users").1.connected ∧
    ((MongoWrapper.connect okDriver MongoWrapper.init "mongodb://localhost:27017"
        "users").1.connected = true →
      (MongoWrapper.connect okDriver MongoWrapper.init "mongodb://localhost:27017"
        "users").1.connection.isSome = true) ∧
    ((MongoWrapper.connect okDriver MongoWrapper.init "mongodb://localhost:27017"
        "users").1.connection.isSome &&
      (MongoWrapper.connect okDriver MongoWrapper.init "mongodb://localhost:27017"
        "users").1.db.isSome) =
      (MongoWrapper.connect okDriver MongoWrapper.init "mongodb://localhost:27017"
        "users").1.connected :=
  wrapper_handles_invariant _ (Reachable.connectStep _ _ _ _ Reachable.init)

/-- C4: a connect on a connected manager fails with the "Already connected."
lifecycle error and leaves the state unchanged; a connect on a disconnected
manager whose driver calls succeed stores the new handles, sets the flag and
resolves with the manager itself. -/
theorem connect_lifecycle : ∀ (drv : DriverOps) (s : WrapperState) (url dbName : String),
    (s.connected = true →
      MongoWrapper.connect drv s url dbName = (s, .error (mongoErr "Already connected."))) ∧
    (∀ c d, s.connected = false → drv.clientConnect url = .ok c →
      drv.dbSelect c dbName = .ok d →
      MongoWrapper.connect drv s url dbName =
        (⟨true, some c, some d⟩, .ok ⟨true, some c, some d⟩)) := by
  intro drv s url dbName
  constructor
  · intro hc
    simp [MongoWrapper.connect, hc]
  · intro c d hc hcc hdb
    simp [MongoWrapper.connect, hc, hcc, hdb]

/-- C4 witness: both branches at concrete states and a concrete driver. -/
theorem connect_lifecycle_witness :
    MongoWrapper.connect okDriver ⟨true, some 7, some 7⟩ "mongodb://localhost:27017"
        "users" =
      (⟨true, some 7, some 7⟩, .error (mongoErr "Already connected.")) ∧
    MongoWrapper.connect okDriver MongoWrapper.init "mongodb://localhost:27017" "users" =
      (⟨true, some 0, some 0⟩, .ok ⟨true, some 0, some 0⟩) :=
  ⟨(connect_lifecycle okDriver ⟨true, some 7, some 7⟩ "mongodb://localhost:27017"
      "users").1 rfl,
   (connect_lifecycle okDriver MongoWrapper.init "mongodb://localhost:27017"
      "users").2 0 0 rfl rfl rfl⟩

/-- C5: a disconnect on a disconnected manager fails with the
"Not connected." lifecycle error and changes nothing; on a connected
reachable manager whose close succeeds it clears the flag and both handles
and resolves with the manager itself. -/
theorem disconnect_lifecycle : ∀ (drv : DriverOps) (s : WrapperState),
    (s.connected = false →
      MongoWrapper.disconnect drv s = (s, .error (mongoErr "Not connected."))) ∧
    (Reachable s → s.connected = true →
      (∀ c, s.connection = some c → drv.close c = .ok ()) →
      MongoWrapper.disconnect drv s =
        (⟨false, none, none⟩, .ok ⟨false, none, none⟩)) := by
  intro drv s
  constructor
  · intro hc
    simp [MongoWrapper.disconnect, hc]
  · intro hr hc hclose
    rcases reachable_handle_inv s hr with ⟨-, h2⟩
    have hs := h2 hc
    cases hconn : s.connection with
    | none => rw [hconn] at hs; simp at hs
    | some c =>
      have hcl := hclose c hconn
      simp [MongoWrapper.disconnect, hc, hconn, hcl]

/-- C5 witness: both branches, against a concrete driver. -/
theorem disconnect_lifecycle_witness :
    MongoWrapper.disconnect okDriver
        (MongoWrapper.connect okDriver MongoWrapper.init "mongodb://localhost:27017"
          "users").1 =
      (⟨false, none, none⟩, .ok ⟨false, none, none⟩) ∧
    MongoWrapper.disconnect okDriver MongoWrapper.init =
      (MongoWrapper.init, .error (mongoErr "Not connected.")) :=
  ⟨(disconnect_lifecycle okDriver _).2 (Reachable.connectStep _ _ _ _ Reachable.init)
      rfl (fun _ _ => rfl),
   (disconnect_lifecycle okDriver MongoWrapper.init).1 rfl⟩

/-- When `updateFirst` matched nothing, the document list is unchanged. -/
theorem updateFirst_none (q : Fields) (f : Document → Document) :
    ∀ l : List Document, (Collection.updateFirst q f l).2 = none →
      (Collection.updateFirst q f l).1 = l := by
  intro l
  induction l with
  | nil => intro _; rfl
  | cons d ds ih =>
    intro h
    by_cases hm : matchesQuery q d = true
    · simp [Collection.updateFirst, hm] at h
    · simp [Collection.updateFirst, hm] at h ⊢
      exact ih h

/-- The document `updateFirst` reports belongs to the list and matches. -/
theorem updateFirst_some (q : Fields) (f : Document → Document) :
    ∀ (l : List Document) (d : Document), (Collection.updateFirst q f l).2 = some d →
      d ∈ l ∧ matchesQuery q d = true := by
  intro l
  induction l with
  | nil => intro d h; simp [Collection.updateFirst] at h
  | cons x xs ih =>
    intro d h
    by_cases hm : matchesQuery q x = true
    · simp [Collection.updateFirst, hm] at h
      subst h
      exact ⟨List.mem_cons_self x xs, hm⟩
    · simp [Collection.updateFirst, hm] at h
      rcases ih d h with ⟨hmem, hq⟩
      exact ⟨List.mem_cons_of_mem x hmem, hq⟩

/-- A field other than the removed one keeps its value. -/
theorem fget_fRemove (k' k : String) (h : ¬ k = k') :
    (d : Fields) → fget (fRemove d k') k = fget d k
  | .nil => rfl
  | .cons k0 v r => by
    have ih := fget_fRemove k' k h r
    by_cases h0 : (k0 == k') = true
    · have hk : (k0 == k) = false := by
        have he : k0 = k' := beq_iff_eq.mp h0
        subst he
        exact beq_eq_false_iff_ne.mpr (fun hh => h hh.symm)
      simp [fRemove, fget, h0, hk, ih]
    · have h0' : (k0 == k') = false := by simpa using h0
      by_cases hk : (k0 == k) = true
      · simp [fRemove, fget, h0', hk]
      · have hk' : (k0 == k) = false := by simpa using hk
        simp [fRemove, fget, h0', hk', ih]

/-- Case split of `insertOne` on the outcome of its duplicate probe: a
non-empty probe rejects with the duplicate error and leaves the state as it
was; an empty probe delegates to the driver's insert of `{ uuid, ...fields }`. -/
theorem insertOne_split (s : CollState) (doc : Document) :
    (Collection.find s.docs (.cons "uuid" (fget doc "uuid") .nil) ≠ [] →
      MongoCollectionWrapper.insertOne s doc = (s, .error (duplicateErr s.collectionName))) ∧
    (Collection.find s.docs (.cons "uuid" (fget doc "uuid") .nil) = [] →
      MongoCollectionWrapper.insertOne s doc =
        ({ s with docs := s.docs ++ [.cons "uuid" (fget doc "uuid") (fRemove doc "uuid")] },
         .ok (Collection.insertOne s.docs
            (.cons "uuid" (fget doc "uuid") (fRemove doc "uuid"))).2)) := by
  constructor
  · intro h
    have hl : (Collection.find s.docs (.cons "uuid" (fget doc "uuid") .nil)).length ≠ 0 :=
      fun hh => h (List.length_eq_zero.mp hh)
    simp [MongoCollectionWrapper.insertOne, hl]
  · intro h
    simp [MongoCollectionWrapper.insertOne, h, Collection.insertOne]

/-- C1: when the probe for the document's `uuid` returns one or more
documents, `insertOne` fails with the duplicate-entry error naming the
collection and the collection is unchanged (no insert is issued); when the
probe returns none, it inserts the document (the re-assembled
`{ uuid, ...fields }`, field-for-field equal to the input) and returns the
driver's insertion result. -/
theorem insertOne_uuid_guard : ∀ (s : CollState) (doc : Document),
    (Collection.find s.docs (.cons "uuid" (fget doc "uuid") .nil) ≠ [] →
      MongoCollectionWrapper.insertOne s doc = (s, .error (duplicateErr s.collectionName))) ∧
    (Collection.find s.docs (.cons "uuid" (fget doc "uuid") .nil) = [] →
      MongoCollectionWrapper.insertOne s doc =
        ({ s with docs := s.docs ++ [.cons "uuid" (fget doc "uuid") (fRemove doc "uuid")] },
         .ok (Collection.insertOne s.docs
            (.cons "uuid" (fget doc "uuid") (fRemove doc "uuid"))).2)) ∧
    (∀ k, fget (.cons "uuid" (fget doc "uuid") (fRemove doc "uuid")) k = fget doc k) := by
  intro s doc
  refine ⟨(insertOne_split s doc).1, (insertOne_split s doc).2, ?_⟩
  intro k
  by_cases hk : k = "uuid"
  · subst hk
    simp [fget]
  · have h1 : ("uuid" == k) = false := beq_eq_false_iff_ne.mpr (fun hh => hk hh.symm)
    simp [fget, h1, fget_fRemove "uuid" k hk]

/-- C1 witness: a duplicate uuid "aaa" is rejected with the collection
unchanged, and an insert into an empty collection stores the document. -/
theorem insertOne_uuid_guard_witness :
    MongoCollectionWrapper.insertOne
        ⟨"users", [fieldsOf [("uuid", .vStr "aaa"), ("foo", .vStr "bar")]]⟩
        (fieldsOf [("uuid", .vStr "aaa"), ("baz", .vInt 3)]) =
      (⟨"users", [fieldsOf [("uuid", .vStr "aaa"), ("foo", .vStr "bar")]]⟩,
       .error (duplicateErr "users")) ∧
    MongoCollectionWrapper.insertOne ⟨"users", []⟩
        (fieldsOf [("uuid", .vStr "aaa"), ("foo", .vStr "bar")]) =
      (⟨"users", [fieldsOf [("uuid", .vStr "aaa"), ("foo", .vStr "bar")]]⟩,
       .ok (Collection.insertOne []
          (fieldsOf [("uuid", .vStr "aaa"), ("foo", .vStr "bar")])).2) :=
  ⟨(insertOne_uuid_guard _ _).1 (fun h => List.noConfusion h),
   (insertOne_uuid_guard _ _).2.1 rfl⟩

/-- Case split of `updateOne` on the outcome of `findOneAndUpdate`: a falsy
`value` rejects with the non-existent-entry error (the document list was
untouched), a document `value` is returned as the call's result. -/
theorem updateOne_split (s : CollState) (filters fields : Fields) (strategy : String) :
    ((Collection.updateFirst filters
        (Collection.applyUpdate (.cons strategy (.vDoc fields) .nil)) s.docs).2 = none →
      MongoCollectionWrapper.updateOne s filters fields strategy =
        (s, .error (nonExistentUpdateErr s.collectionName))) ∧
    (∀ d, (Collection.updateFirst filters
        (Collection.applyUpdate (.cons strategy (.vDoc fields) .nil)) s.docs).2 = some d →
      MongoCollectionWrapper.updateOne s filters fields strategy =
        ({ s with docs := (Collection.updateFirst filters
            (Collection.applyUpdate (.cons strategy (.vDoc fields) .nil)) s.docs).1 },
         .ok (.vDoc d))) := by
  constructor
  · intro h
    have h1 := updateFirst_none filters
      (Collection.applyUpdate (.cons strategy (.vDoc fields) .nil)) s.docs h
    simp [MongoCollectionWrapper.updateOne, Collection.findOneAndUpdate, h, h1, getField, fget,
      Collection.optDocValue, jsTruthy]
  · intro d h
    simp [MongoCollectionWrapper.updateOne, Collection.findOneAndUpdate, h, getField, fget,
      Collection.optDocValue, jsTruthy]

/-- C2: counterexample to "returns the updated document". With the driver's
default `returnOriginal` (the repository documents it as true), `updateOne`
on a matching filter stores the `$set` fields but resolves with the document
as it was before the update: here the stored document gains `foo = "baz"`
while the returned one has no `foo` at all. -/
theorem updateOne_returns_original_cex :
    MongoCollectionWrapper.updateOne ⟨"users", [fieldsOf [("uuid", .vStr "aaa")]]⟩
        (fieldsOf [("uuid", .vStr "aaa")]) (fieldsOf [("foo", .vStr "baz")]) =
      (⟨"users", [fieldsOf [("uuid", .vStr "aaa"), ("foo", .vStr "baz")]]⟩,
       .ok (.vDoc (fieldsOf [("uuid", .vStr "aaa")]))) ∧
    getField (.vDoc (fieldsOf [("uuid", .vStr "aaa")])) "foo" = .vUndefined ∧
    getField (.vDoc (fieldsOf [("uuid", .vStr "aaa"), ("foo", .vStr "baz")])) "foo" =
      .vStr "baz" ∧
    Value.vDoc (fieldsOf [("uuid", .vStr "aaa")]) ≠
      Value.vDoc (fieldsOf [("uuid", .vStr "aaa"), ("foo", .vStr "baz")]) :=
  ⟨rfl, rfl, rfl, by simp [fieldsOf]⟩

/-- C2 (amended): on a filter matching no document `updateOne` fails with the
non-existent-entry error naming the collection and leaves the collection
unchanged; on a filter whose first match is `d`, it applies the `$set` fields
to `d` in the collection atomically and returns `d` as it was before the
update (the driver's default is to report the original document). -/
theorem updateOne_checked : ∀ (s : CollState) (filters fields : Fields),
    ((Collection.updateFirst filters
        (Collection.applyUpdate (.cons "$set" (.vDoc fields) .nil)) s.docs).2 = none →
      MongoCollectionWrapper.updateOne s filters fields =
        (s, .error (nonExistentUpdateErr s.collectionName))) ∧
    (∀ d, (Collection.updateFirst filters
        (Collection.applyUpdate (.cons "$set" (.vDoc fields) .nil)) s.docs).2 = some d →
      MongoCollectionWrapper.updateOne s filters fields =
        ({ s with docs := (Collection.updateFirst filters
            (Collection.applyUpdate (.cons "$set" (.vDoc fields) .nil)) s.docs).1 },
         .ok (.vDoc d)) ∧ d ∈ s.docs ∧ matchesQuery filters d = true) := by
  intro s filters fields
  refine ⟨(updateOne_split s filters fields "$set").1, ?_⟩
  intro d h
  exact ⟨(updateOne_split s filters fields "$set").2 d h, updateFirst_some _ _ _ _ h⟩

/-- C2 witness: the empty-match rejection on an empty collection and the
matching update that returns the pre-update document. -/
theorem updateOne_checked_witness :
    MongoCollectionWrapper.updateOne ⟨"users", []⟩ (fieldsOf [("uuid", .vStr "aaa")])
        (fieldsOf [("foo", .vStr "baz")]) =
      (⟨"users", []⟩, .error (nonExistentUpdateErr "users")) ∧
    (MongoCollectionWrapper.updateOne ⟨"users", [fieldsOf [("uuid", .vStr "aaa")]]⟩
        (fieldsOf [("uuid", .vStr "aaa")]) (fieldsOf [("foo", .vStr "baz")]) =
      (⟨"users", [fieldsOf [("uuid", .vStr "aaa"), ("foo", .vStr "baz")]]⟩,
       .ok (.vDoc (fieldsOf [("uuid", .vStr "aaa")]))) ∧
     fieldsOf [("uuid", .vStr "aaa")] ∈ [fieldsOf [("uuid", .vStr "aaa")]] ∧
     matchesQuery (fieldsOf [("uuid", .vStr "aaa")])
        (fieldsOf [("uuid", .vStr "aaa")]) = true) :=
  ⟨(updateOne_checked _ _ _).1 rfl, (updateOne_checked _ _ _).2 _ rfl⟩

/-- C6: `updateMany` and `deleteMany` never reject, for any filter: each
resolves with the `value` field of the driver's report (absent, hence
undefined, for the driver's `updateMany` result), and in particular neither
can fail with a non-existent-entry error. -/
theorem many_ops_unchecked : ∀ (s : CollState) (filters fields q : Fields) (strategy : String),
    MongoCollectionWrapper.updateMany s filters fields strategy =
      ({ s with docs := (Collection.updateMany s.docs filters
          (.cons strategy (.vDoc fields) .nil)).1 },
       .ok (getField (Collection.updateMany s.docs filters
          (.cons strategy (.vDoc fields) .nil)).2 "value")) ∧
    (MongoCollectionWrapper.updateMany s filters fields strategy).2 = .ok .vUndefined ∧
    MongoCollectionWrapper.deleteMany s q =
      ({ s with docs := (Collection.findAndRemove s.docs q).1 },
       .ok (getField (Collection.findAndRemove s.docs q).2 "value")) ∧
    (∀ e, (MongoCollectionWrapper.updateMany s filters fields strategy).2 ≠ .error e) ∧
    (∀ e, (MongoCollectionWrapper.deleteMany s q).2 ≠ .error e) := by
  intro s filters fields q strategy
  refine ⟨rfl, rfl, rfl, ?_, ?_⟩
  · intro e h
    simp [MongoCollectionWrapper.updateMany] at h
  · intro e h
    simp [MongoCollectionWrapper.deleteMany] at h

/-- C6 witness: a concrete `updateMany` resolves with undefined, and a
concrete `deleteMany` on a filter matching nothing does not reject with the
non-existent-entry error. -/
theorem many_ops_unchecked_witness :
    (MongoCollectionWrapper.updateMany ⟨"users", [fieldsOf [("uuid", .vStr "aaa")]]⟩
        (fieldsOf [("uuid", .vStr "aaa")]) (fieldsOf [("foo", .vStr "baz")]) "$set").2 =
      .ok .vUndefined ∧
    (MongoCollectionWrapper.deleteMany ⟨"users", []⟩ (fieldsOf [("uuid", .vStr "zzz")])).2 ≠
      .error (nonExistentUpdateErr "users") :=
  ⟨(many_ops_unchecked ⟨"users", [fieldsOf [("uuid", .vStr "aaa")]]⟩
      (fieldsOf [("uuid", .vStr "aaa")]) (fieldsOf [("foo", .vStr "baz")])
      (fieldsOf [("uuid", .vStr "zzz")]) "$set").2.1,
   (many_ops_unchecked ⟨"users", []⟩ (fieldsOf [("uuid", .vStr "aaa")])
      (fieldsOf [("foo", .vStr "baz")]) (fieldsOf [("uuid", .vStr "zzz")]) "$set").2.2.2.2
     (nonExistentUpdateErr "users")⟩

/-- C7: failing input for "deleteMany removes all matches". On a collection
with two documents matching `{ uuid: "aaa" }`, `deleteMany` (which delegates
to the driver's single-document `findAndRemove`) removes only the first: the
second still sits in the collection and still matches the filter. -/
theorem deleteMany_removes_only_first :
    (MongoCollectionWrapper.deleteMany
        ⟨"users", [fieldsOf [("uuid", .vStr "aaa"), ("k", .vInt 1)],
                   fieldsOf [("uuid", .vStr "aaa"), ("k", .vInt 2)]]⟩
        (fieldsOf [("uuid", .vStr "aaa")])).1 =
      ⟨"users", [fieldsOf [("uuid", .vStr "aaa"), ("k", .vInt 2)]]⟩ ∧
    matchesQuery (fieldsOf [("uuid", .vStr "aaa")])
        (fieldsOf [("uuid", .vStr "aaa"), ("k", .vInt 2)]) = true ∧
    (MongoCollectionWrapper.deleteMany
        ⟨"users", [fieldsOf [("uuid", .vStr "aaa"), ("k", .vInt 1)],
                   fieldsOf [("uuid", .vStr "aaa"), ("k", .vInt 2)]]⟩
        (fieldsOf [("uuid", .vStr "aaa")])).2 =
      .ok (.vDoc (fieldsOf [("uuid", .vStr "aaa"), ("k", .vInt 1)])) :=
  ⟨rfl, rfl, rfl⟩

/-- C8: the collection-wrapper constructor rejects a null client with the
client-missing error, a missing or empty collection name with the
name-missing error, and otherwise resolves to an instance whose stored name
is the given one and whose collection handle is the one the client returns
for that name. -/
theorem construct_guards : ∀ (α : Type) (client : Option (String → Except MongoError α))
    (name : Option String),
    (client = none →
      constructCollectionWrapper client name =
        .error (mongoErr "Mongo client is not provided.")) ∧
    (∀ f, client = some f → (name = none ∨ name = some "") →
      constructCollectionWrapper client name =
        .error (mongoErr "Collection name is not provided.")) ∧
    (∀ f nm h, client = some f → name = some nm → ¬ nm = "" → f nm = .ok h →
      constructCollectionWrapper client name = .ok ⟨h, nm⟩) := by
  intro α client name
  refine ⟨?_, ?_, ?_⟩
  · intro h
    subst h
    rfl
  · intro f hf hn
    subst hf
    rcases hn with hn | hn
    · subst hn; rfl
    · subst hn; rfl
  · intro f nm h hf hnm hne hok
    subst hf
    subst hnm
    have hb : (nm == "") = false := beq_eq_false_iff_ne.mpr hne
    simp [constructCollectionWrapper, hb, hok]

/-- C8 witness: the three constructor branches at concrete arguments. -/
theorem construct_guards_witness :
    constructCollectionWrapper (α := Nat) none (some "users") =
      .error (mongoErr "Mongo client is not provided.") ∧
    constructCollectionWrapper (α := Nat) (some (fun _ => .ok 7)) (some "") =
      .error (mongoErr "Collection name is not provided.") ∧
    constructCollectionWrapper (α := Nat) (some (fun _ => .ok 7)) (some "users") =
      .ok ⟨7, "users"⟩ :=
  ⟨(construct_guards Nat none (some "users")).1 rfl,
   (construct_guards Nat (some (fun _ => .ok 7)) (some "")).2.1 (fun _ => .ok 7) rfl
     (Or.inr rfl),
   (construct_guards Nat (some (fun _ => .ok 7)) (some "users")).2.2 (fun _ => .ok 7)
     "users" 7 rfl rfl (by decide) rfl⟩

/-- C9: for a `fields` object with the single key `sub`, when the probe on
the dotted path `sub.uuid` for the subfield's `uuid` finds a match,
`safeInsertSubfields` fails with the duplicate-entry error naming the
collection and performs no write; when it finds none, the call performs the
`$push` update of the subfield on the first document matching the filter and
resolves with undefined. -/
theorem safeInsertSubfields_guard : ∀ (s : CollState) (filters : Fields) (sub : String)
    (v : Value),
    (Collection.find s.docs (.cons (sub ++ ".uuid") (getField v "uuid") .nil) ≠ [] →
      MongoCollectionWrapper.safeInsertSubfields s filters (.cons sub v .nil) =
        (s, .error (duplicateErr s.collectionName))) ∧
    (Collection.find s.docs (.cons (sub ++ ".uuid") (getField v "uuid") .nil) = [] →
      ∀ d, (Collection.updateFirst filters
          (Collection.applyUpdate (.cons "$push" (.vDoc (.cons sub v .nil)) .nil))
          s.docs).2 = some d →
        MongoCollectionWrapper.safeInsertSubfields s filters (.cons sub v .nil) =
          ({ s with docs := (Collection.updateFirst filters
              (Collection.applyUpdate (.cons "$push" (.vDoc (.cons sub v .nil)) .nil))
              s.docs).1 },
           .ok .vUndefined)) := by
  intro s filters sub v
  have hfg : fget (.cons sub v .nil) sub = v := by simp [fget]
  constructor
  · intro h
    cases hfind : Collection.find s.docs (.cons (sub ++ ".uuid") (getField v "uuid") .nil) with
    | nil => exact absurd hfind h
    | cons hd tl =>
      simp [MongoCollectionWrapper.safeInsertSubfields, hfg, hfind]
  · intro h d hupd
    have hsplit := (updateOne_split s filters (.cons sub v .nil) "$push").2 d hupd
    simp [MongoCollectionWrapper.safeInsertSubfields, hfg, h, hsplit]

/-- C9 witness: pushing a fresh subfield uuid appends it to the array, and
pushing an already-present subfield uuid rejects without a write. -/
theorem safeInsertSubfields_guard_witness :
    MongoCollectionWrapper.safeInsertSubfields
        ⟨"users", [fieldsOf [("uuid", .vStr "aaa"), ("foo", .vArr .nil)]]⟩
        (fieldsOf [("uuid", .vStr "aaa")])
        (.cons "foo" (.vDoc (fieldsOf [("uuid", .vStr "bbb"), ("name", .vStr "bar")])) .nil) =
      (⟨"users", [fieldsOf [("uuid", .vStr "aaa"),
          ("foo", .vArr (.cons (.vDoc (fieldsOf [("uuid", .vStr "bbb"),
            ("name", .vStr "bar")])) .nil))]]⟩,
       .ok .vUndefined) ∧
    MongoCollectionWrapper.safeInsertSubfields
        ⟨"users", [fieldsOf [("uuid", .vStr "aaa"),
          ("foo", .vArr (.cons (.vDoc (fieldsOf [("uuid", .vStr "bbb")])) .nil))]]⟩
        (fieldsOf [("uuid", .vStr "aaa")])
        (.cons "foo" (.vDoc (fieldsOf [("uuid", .vStr "bbb"), ("name", .vStr "bar")])) .nil) =
      (⟨"users", [fieldsOf [("uuid", .vStr "aaa"),
          ("foo", .vArr (.cons (.vDoc (fieldsOf [("uuid", .vStr "bbb")])) .nil))]]⟩,
       .error (duplicateErr "users")) :=
  ⟨(safeInsertSubfields_guard ⟨"users", [fieldsOf [("uuid", .vStr "aaa"), ("foo", .vArr .nil)]]⟩
      (fieldsOf [("uuid", .vStr "aaa")]) "foo"
      (.vDoc (fieldsOf [("uuid", .vStr "bbb"), ("name", .vStr "bar")]))).2 rfl
     (fieldsOf [("uuid", .vStr "aaa"), ("foo", .vArr .nil)]) rfl,
   (safeInsertSubfields_guard _ _ "foo"
      (.vDoc (fieldsOf [("uuid", .vStr "bbb"), ("name", .vStr "bar")]))).1
     (fun h => List.noConfusion h)⟩

/-- C10: `insertOne` has no missing-uuid error: its only rejection is the
duplicate-entry one. For a document with no `uuid` field, the probe is the
query `{ uuid: undefined }`, and when that probe returns no documents the
wrapper inserts the document with an explicit `uuid` key whose value is
undefined; the probe's outcome is keyed solely on the `uuid` value, so two
documents agreeing on `uuid` are accepted or rejected alike. -/
theorem insertOne_undefined_uuid : ∀ (s : CollState) (doc : Document),
    (∀ e, (MongoCollectionWrapper.insertOne s doc).2 = .error e →
      e = duplicateErr s.collectionName) ∧
    (fget doc "uuid" = .vUndefined →
      (Collection.find s.docs (.cons "uuid" .vUndefined .nil) ≠ [] →
        MongoCollectionWrapper.insertOne s doc =
          (s, .error (duplicateErr s.collectionName))) ∧
      (Collection.find s.docs (.cons "uuid" .vUndefined .nil) = [] →
        MongoCollectionWrapper.insertOne s doc =
          ({ s with docs := s.docs ++ [.cons "uuid" .vUndefined (fRemove doc "uuid")] },
           .ok (Collection.insertOne s.docs
              (.cons "uuid" .vUndefined (fRemove doc "uuid"))).2))) ∧
    (∀ doc2, fget doc "uuid" = fget doc2 "uuid" →
      isOkResult (MongoCollectionWrapper.insertOne s doc).2 =
        isOkResult (MongoCollectionWrapper.insertOne s doc2).2) := by
  intro s doc
  refine ⟨?_, ?_, ?_⟩
  · intro e h
    by_cases hl : Collection.find s.docs (.cons "uuid" (fget doc "uuid") .nil) = []
    · rw [(insertOne_split s doc).2 hl] at h
      simp at h
    · rw [(insertOne_split s doc).1 hl] at h
      simp at h
      exact h.symm
  · intro hu
    constructor
    · intro h
      apply (insertOne_split s doc).1
      rw [hu]
      exact h
    · intro h
      have h2 : Collection.find s.docs (.cons "uuid" (fget doc "uuid") .nil) = [] := by
        rw [hu]; exact h
      have h3 := (insertOne_split s doc).2 h2
      rw [hu] at h3
      exact h3
  · intro doc2 hsame
    by_cases hl : Collection.find s.docs (.cons "uuid" (fget doc "uuid") .nil) = []
    · have hl2 : Collection.find s.docs (.cons "uuid" (fget doc2 "uuid") .nil) = [] := by
        rw [← hsame]; exact hl
      rw [(insertOne_split s doc).2 hl, (insertOne_split s doc2).2 hl2]
      simp [isOkResult]
    · have hl2 : ¬ Collection.find s.docs (.cons "uuid" (fget doc2 "uuid") .nil) = [] := by
        rw [← hsame]; exact hl
      rw [(insertOne_split s doc).1 hl, (insertOne_split s doc2).1 hl2]

/-- C10 witness: a document without `uuid` is inserted with an explicit
undefined `uuid` key, and two documents sharing a duplicate uuid are both
rejected. -/
theorem insertOne_undefined_uuid_witness :
    MongoCollectionWrapper.insertOne ⟨"users", []⟩ (fieldsOf [("foo", .vStr "bar")]) =
      (⟨"users", [fieldsOf [("uuid", .vUndefined), ("foo", .vStr "bar")]]⟩,
       .ok (Collection.insertOne []
          (.cons "uuid" .vUndefined (fieldsOf [("foo", .vStr "bar")]))).2) ∧
    isOkResult (MongoCollectionWrapper.insertOne ⟨"users", [fieldsOf [("uuid", .vStr "x")]]⟩
        (fieldsOf [("uuid", .vStr "x"), ("a", .vInt 1)])).2 =
      isOkResult (MongoCollectionWrapper.insertOne ⟨"users", [fieldsOf [("uuid", .vStr "x")]]⟩
        (fieldsOf [("uuid", .vStr "x"), ("b", .vInt 2)])).2 :=
  ⟨((insertOne_undefined_uuid ⟨"users", []⟩ (fieldsOf [("foo", .vStr "bar")])).2.1 rfl).2 rfl,
   (insertOne_undefined_uuid ⟨"users", [fieldsOf [("uuid", .vStr "x")]]⟩
      (fieldsOf [("uuid", .vStr "x"), ("a", .vInt 1)])).2.2
     (fieldsOf [("uuid", .vStr "x"), ("b", .vInt 2)]) rfl⟩
